import Mathlib

/-!
Verification of the interactive PDF viewer component (`PdfPreview`):
spread addressing and mode conversion, the flip-animation state machine,
the page-raster cache and fetch behaviour, and the viewport zoom/pan
transform driven by wheel zoom, zoom buttons, drag pan and
zoom-to-selection.  Continuous geometry is modelled over `ℚ` (the source
arithmetic on these paths is exact: additions, multiplications,
divisions, `min`/`max`), page and spread indices over `ℕ`.
-/

namespace PdfPreview

/-- MIN_ZOOM constant of the source. -/
def MIN_ZOOM : ℚ := 1

/-- MAX_ZOOM constant of the source. -/
def MAX_ZOOM : ℚ := 8

/-- ZOOM_STEP constant of the source (0.3). -/
def ZOOM_STEP : ℚ := 3 / 10

/-- A 2D point / offset in pixel coordinates. -/
structure Vec2 where
  x : ℚ
  y : ℚ
deriving DecidableEq

/-- The viewport transform state: the `zoom` scalar and the `pan` offset. -/
structure Transform where
  zoom : ℚ
  pan : Vec2
deriving DecidableEq

/-- The `resetZoom` callback: zoom 1, pan (0,0). -/
def resetZoom : Transform := ⟨1, ⟨0, 0⟩⟩

/-- The `handleWheel` callback.  `clientX`/`clientY` are the pointer
position, `rectLeft`/`rectTop`/`rectWidth`/`rectHeight` the container's
bounding rectangle.  The cursor position is normalised, the zoom is
stepped by `ZOOM_STEP` (sign of `deltaY` decides the direction) and
clamped to `[MIN_ZOOM, MAX_ZOOM]`; reaching `MIN_ZOOM` forces
`pan = (0,0)`, otherwise a changed zoom recomputes the pan around the
cursor and an unchanged zoom leaves the pan alone. -/
def handleWheel (deltaY clientX clientY rectLeft rectTop rectWidth rectHeight : ℚ)
    (t : Transform) : Transform :=
  let cursorX := (clientX - rectLeft) / rectWidth
  let cursorY := (clientY - rectTop) / rectHeight
  let delta := if 0 < deltaY then -ZOOM_STEP else ZOOM_STEP
  let newZoom := min MAX_ZOOM (max MIN_ZOOM (t.zoom + delta))
  if newZoom = MIN_ZOOM then
    { zoom := newZoom, pan := ⟨0, 0⟩ }
  else if newZoom ≠ t.zoom then
    let zr := newZoom / t.zoom
    { zoom := newZoom,
      pan := ⟨cursorX * rectWidth * (1 - zr) + t.pan.x * zr,
              cursorY * rectHeight * (1 - zr) + t.pan.y * zr⟩ }
  else
    { zoom := newZoom, pan := t.pan }

/-- The zoom-out toolbar button: step down by `ZOOM_STEP * 2`, clamp at
`MIN_ZOOM`, and force `pan = (0,0)` when the clamp is reached. -/
def zoomOutBtn (t : Transform) : Transform :=
  let nz := max MIN_ZOOM (t.zoom - ZOOM_STEP * 2)
  if nz = MIN_ZOOM then { zoom := nz, pan := ⟨0, 0⟩ } else { zoom := nz, pan := t.pan }

/-- The zoom-in toolbar button: step up by `ZOOM_STEP * 2`, clamp at
`MAX_ZOOM`; the pan is left untouched. -/
def zoomInBtn (t : Transform) : Transform :=
  { zoom := min MAX_ZOOM (t.zoom + ZOOM_STEP * 2), pan := t.pan }

/-- The transform invariant claimed by the specification: zoom lies in
`[1, 8]` and zoom exactly 1 forces a zero pan. -/
def transformInv (t : Transform) : Prop :=
  1 ≤ t.zoom ∧ t.zoom ≤ 8 ∧ (t.zoom = 1 → t.pan = ⟨0, 0⟩)

instance (t : Transform) : Decidable (transformInv t) := by
  unfold transformInv; infer_instance

/-- One page or spread side of the book view: a 1-based page number or
`none` for an empty slot. -/
structure Spread where
  left : Option ℕ
  right : Option ℕ
deriving DecidableEq

/-- The `getSpreadPages` helper: spread 0 is the cover
(`left = null, right = 1`, with no check against `totalPages`); spread
`s ≥ 1` shows pages `2s` and `2s+1`, each `null` when it exceeds
`totalPages`. -/
def getSpreadPages (totalPages spread : ℕ) : Spread :=
  if spread = 0 then ⟨none, some 1⟩
  else
    ⟨if spread * 2 ≤ totalPages then some (spread * 2) else none,
     if spread * 2 + 1 ≤ totalPages then some (spread * 2 + 1) else none⟩

/-- The `totalSpreads` value `Math.ceil((totalPages + 1) / 2)`, written
over `ℕ` using `ceil (n / 2) = (n + 1) / 2` for natural division. -/
def totalSpreads (totalPages : ℕ) : ℕ := (totalPages + 1 + 1) / 2

/-- Single→book conversion in `handleModeChange`: page 1 maps to the
cover spread 0, any other page `p` to `Math.floor(p / 2)`. -/
def pageToSpread (p : ℕ) : ℕ := if p = 1 then 0 else p / 2

/-- Book→single conversion in `handleModeChange`:
`setCurrentPage(left || right || 1)`.  Page numbers produced by
`getSpreadPages` are never `0`, so the JS falsiness chain coincides with
the `Option` chain. -/
def spreadToPage (totalPages spread : ℕ) : ℕ :=
  match getSpreadPages totalPages spread with
  | ⟨some l, _⟩ => l
  | ⟨none, some r⟩ => r
  | ⟨none, none⟩ => 1

/-- Direction of a page flip animation. -/
inductive FlipDir where
  | next
  | prev
deriving DecidableEq

/-- Book-mode navigation state: the current spread index, the `flipping`
marker (`null | 'next' | 'prev'`), and the pending `setTimeout` handle
(modelled by the action the timer will perform when it fires). -/
structure BookState where
  currentSpread : ℕ
  flipping : Option FlipDir
  timerPending : Option FlipDir
deriving DecidableEq

/-- The `goNextSpread` callback: rejected (the whole state untouched)
when the spread is already at the end or a flip is in progress;
otherwise sets `flipping = 'next'`, clears any previous timer and starts
the 500 ms timer that will advance the spread. -/
def goNextSpread (ts : ℕ) (st : BookState) : BookState :=
  if ts - 1 ≤ st.currentSpread ∨ st.flipping ≠ none then st
  else { st with flipping := some FlipDir.next, timerPending := some FlipDir.next }

/-- The `goPrevSpread` callback: rejected when at the cover or a flip is
in progress; otherwise sets `flipping = 'prev'` and restarts the timer. -/
def goPrevSpread (ts : ℕ) (st : BookState) : BookState :=
  if st.currentSpread = 0 ∨ st.flipping ≠ none then st
  else { st with flipping := some FlipDir.prev, timerPending := some FlipDir.prev }

/-- Firing of the pending flip timer: `next` advances the spread with a
`Math.min(totalSpreads - 1, s + 1)` clamp, `prev` retreats with a
`Math.max(0, s - 1)` clamp (natural subtraction), and both clear
`flipping` and the timer handle. -/
def flipTimerFire (ts : ℕ) (st : BookState) : BookState :=
  match st.timerPending with
  | none => st
  | some FlipDir.next => ⟨min (ts - 1) (st.currentSpread + 1), none, none⟩
  | some FlipDir.prev => ⟨st.currentSpread - 1, none, none⟩

/-- The page cache (`pageCache`): an insert-at-front association list
from 1-based page numbers to opaque raster payloads (payloads modelled
as `ℕ`); lookup takes the most recent entry, matching JS object
overwrite semantics. -/
def cacheLookup (c : List (ℕ × ℕ)) (p : ℕ) : Option ℕ :=
  (c.find? fun e => e.1 = p).map fun e => e.2

/-- Result of one `fetchThumb` call: the value returned to the caller,
the cache afterwards, and whether a network request was issued. -/
structure FetchResult where
  result : Option ℕ
  cache : List (ℕ × ℕ)
  fetchIssued : Bool
deriving DecidableEq

/-- The `fetchThumb` callback.  `hasDoc` models `projectId && filename`;
`page` is an integer because callers pass `currentPage - 1` (page 0).
Out-of-range or doc-less calls return `null` without fetching; a cache
hit returns the cached payload without fetching; otherwise a request is
issued and `net` is its outcome — `some data` is stored in the cache and
returned, while a failure (`none`) is caught (`catch { return null }`)
and leaves the cache unchanged. -/
def fetchThumb (hasDoc : Bool) (page : ℤ) (totalPages : ℕ) (c : List (ℕ × ℕ))
    (net : Option ℕ) : FetchResult :=
  if ¬hasDoc ∨ page < 1 ∨ (totalPages : ℤ) < page then ⟨none, c, false⟩
  else
    match cacheLookup c page.toNat with
    | some d => ⟨some d, c, false⟩
    | none =>
      match net with
      | some d => ⟨some d, (page.toNat, d) :: c, true⟩
      | none => ⟨none, c, true⟩

/-- The selection rectangle state (`selectionRect`): anchor point
(`startX`, `startY`) plus the normalised box `{x, y, w, h}`, all in
container-local pixels. -/
structure SelectionRect where
  startX : ℚ
  startY : ℚ
  x : ℚ
  y : ℚ
  w : ℚ
  h : ℚ
deriving DecidableEq

/-- The zoom-to-selection computation performed by `handleMouseUp` when
its guard passes: the zoom is scaled by
`min(rectWidth / sel.w, rectHeight / sel.h)` and clamped at `MAX_ZOOM`
(there is no lower clamp in the source), and the pan maps the
selection's centre to the viewport's centre. -/
def zoomToSelection (rectWidth rectHeight : ℚ) (sel : SelectionRect)
    (t : Transform) : Transform :=
  let scaleX := rectWidth / sel.w
  let scaleY := rectHeight / sel.h
  let zr := min scaleX scaleY
  let newZoom := min MAX_ZOOM (t.zoom * zr)
  let ar := newZoom / t.zoom
  let selCenterX := sel.x + sel.w / 2
  let selCenterY := sel.y + sel.h / 2
  ⟨newZoom,
   ⟨rectWidth / 2 - ar * (selCenterX - t.pan.x),
    rectHeight / 2 - ar * (selCenterY - t.pan.y)⟩⟩

/-- The mutable state of one pointer gesture: the live transform, the
drag mode (`dragModeRef`, `true` for `'pan'`), the anchor refs
(`dragStartRef`, `panStartRef`), the selection rectangle and the
`didDragRef` flag. -/
structure DragState where
  transform : Transform
  isPanMode : Bool
  dragStart : Vec2
  panStart : Vec2
  sel : Option SelectionRect
  didDrag : Bool
deriving DecidableEq

/-- The `handleMouseDown` callback: with Ctrl/Cmd held the gesture is a
pan (recording `panStartRef = pan`), otherwise a selection rectangle of
zero size is opened at the container-local pointer position. -/
def handleMouseDown (ctrl : Bool) (rectLeft rectTop : ℚ) (client : Vec2)
    (t : Transform) : DragState :=
  if ctrl then
    ⟨t, true, client, t.pan, none, false⟩
  else
    ⟨t, false, client, t.pan,
     some ⟨client.x - rectLeft, client.y - rectTop,
           client.x - rectLeft, client.y - rectTop, 0, 0⟩, false⟩

/-- The `handleMouseMove` callback while dragging: sets `didDragRef`
once the displacement from `dragStartRef` exceeds 5 px on either axis;
in pan mode the pan tracks `panStart + (pointer - dragStart)`
(unconditionally, with no threshold), in select mode the selection
rectangle is re-normalised around its anchor. -/
def handleMouseMove (rectLeft rectTop : ℚ) (client : Vec2) (st : DragState) :
    DragState :=
  let dx := client.x - st.dragStart.x
  let dy := client.y - st.dragStart.y
  let dd := if 5 < |dx| ∨ 5 < |dy| then true else st.didDrag
  if st.isPanMode then
    { st with
      didDrag := dd,
      transform := { st.transform with
        pan := ⟨st.panStart.x + dx, st.panStart.y + dy⟩ } }
  else
    let curX := client.x - rectLeft
    let curY := client.y - rectTop
    { st with
      didDrag := dd,
      sel := st.sel.map fun p =>
        { p with
          x := min p.startX curX, y := min p.startY curY,
          w := |curX - p.startX|, h := |curY - p.startY| } }

/-- The `handleMouseUp` callback: only a select-mode gesture with a live
selection, `didDrag` set and a selection strictly larger than 20×20 px
changes the transform (via zoom-to-selection); every path discards the
selection rectangle. -/
def handleMouseUp (rectWidth rectHeight : ℚ) (st : DragState) : DragState :=
  let st2 :=
    if st.isPanMode then st
    else
      match st.sel with
      | some sel =>
        if st.didDrag ∧ 20 < sel.w ∧ 20 < sel.h then
          { st with transform := zoomToSelection rectWidth rectHeight sel st.transform }
        else st
      | none => st
  { st2 with sel := none }

/-- A whole pointer gesture: pointer-down at `start`, the list of
pointer-move positions in order, then pointer-up; returns the resulting
transform. -/
def runGesture (ctrl : Bool) (rectLeft rectTop rectWidth rectHeight : ℚ)
    (start : Vec2) (moves : List Vec2) (t : Transform) : Transform :=
  let st0 := handleMouseDown ctrl rectLeft rectTop start t
  let st1 := moves.foldl (fun s m => handleMouseMove rectLeft rectTop m s) st0
  (handleMouseUp rectWidth rectHeight st1).transform

/-! ## Theorems -/

/-- Helper: the natural-division form of `totalSpreads` agrees with the
real ceiling `Math.ceil((totalPages + 1) / 2)` of the source. -/
theorem totalSpreads_eq_ceil (pc : ℕ) :
    (totalSpreads pc : ℤ) = ⌈((pc : ℚ) + 1) / 2⌉ := by
  have h1 : pc + 1 ≤ 2 * totalSpreads pc := by unfold totalSpreads; omega
  have h2 : 2 * totalSpreads pc ≤ pc + 2 := by unfold totalSpreads; omega
  have h1q : ((pc : ℚ) + 1) ≤ 2 * (totalSpreads pc : ℚ) := by exact_mod_cast h1
  have h2q : 2 * (totalSpreads pc : ℚ) ≤ (pc : ℚ) + 2 := by exact_mod_cast h2
  rw [eq_comm, Int.ceil_eq_iff]
  constructor
  · push_cast
    linarith
  · push_cast
    linarith

/-- C2 (counterexample): contrary to the claim's exception clause, the
cover spread's right slot is page 1 even when `pageCount = 0`: the
source returns `{ left: null, right: 1 }` for spread 0 unconditionally. -/
theorem spread_cover_cex :
    (getSpreadPages 0 0).right = some 1 ∧ (getSpreadPages 0 0).right ≠ none := by
  decide

/-- C2 (amended): for every `pageCount`, spread 0 is
`{left: null, right: 1}` unconditionally (also when `pageCount = 0`);
for `s ≥ 1` the slots are `2s` and `2s+1`, each `null` when it exceeds
`pageCount`; and the total number of spreads equals
`ceil((pageCount + 1) / 2)`. -/
theorem spread_addressing (pc : ℕ) :
    getSpreadPages pc 0 = ⟨none, some 1⟩
    ∧ (∀ s, 1 ≤ s → getSpreadPages pc s =
        ⟨if 2 * s ≤ pc then some (2 * s) else none,
         if 2 * s + 1 ≤ pc then some (2 * s + 1) else none⟩)
    ∧ (totalSpreads pc : ℤ) = ⌈((pc : ℚ) + 1) / 2⌉ := by
  refine ⟨by simp [getSpreadPages], ?_, totalSpreads_eq_ceil pc⟩
  intro s hs
  have hs0 : s ≠ 0 := by omega
  simp only [getSpreadPages, if_neg hs0, Nat.mul_comm s 2]

/-- C2 (witness): the amended addressing evaluated at `pageCount = 5`,
spread 2, giving pages 4 and 5 and three spreads in total. -/
theorem spread_addressing_witness :
    getSpreadPages 5 2 = ⟨some 4, some 5⟩ ∧ (totalSpreads 5 : ℤ) = 3 := by
  have h := spread_addressing 5
  refine ⟨?_, ?_⟩
  · rw [h.2.1 2 (by norm_num)]
    decide
  · rw [h.2.2]
    norm_num [Int.ceil_eq_iff]

/-- C9: for spreads `s ≥ 1`, a non-null right page forces a non-null
left page, the only spread shapes are `{2s, 2s+1}`, `{2s, null}` and
`{null, null}`, and a null left together with a non-null right happens
only at the cover spread 0. -/
theorem spread_shape (pc s : ℕ) :
    (1 ≤ s →
      ((getSpreadPages pc s).right ≠ none → (getSpreadPages pc s).left ≠ none)
      ∧ (getSpreadPages pc s = ⟨some (2 * s), some (2 * s + 1)⟩
         ∨ getSpreadPages pc s = ⟨some (2 * s), none⟩
         ∨ getSpreadPages pc s = ⟨none, none⟩))
    ∧ ((getSpreadPages pc s).left = none → (getSpreadPages pc s).right ≠ none →
        s = 0) := by
  constructor
  · intro hs
    have hs0 : s ≠ 0 := by omega
    simp only [getSpreadPages, if_neg hs0, Nat.mul_comm s 2]
    constructor
    · split_ifs with hl hr <;> simp <;> omega
    · split_ifs with hl hr <;> simp_all <;> omega
  · intro hl hr
    by_contra hs0
    simp only [getSpreadPages, if_neg hs0] at hl hr
    split_ifs at hl hr <;> simp_all <;> omega

/-- C9 (witness): the shape facts evaluated at `pageCount = 4`,
spread 2, whose spread is `{4, null}`. -/
theorem spread_shape_witness :
    getSpreadPages 4 2 = ⟨some 4, some 5⟩
    ∨ getSpreadPages 4 2 = ⟨some 4, none⟩
    ∨ getSpreadPages 4 2 = ⟨none, none⟩ :=
  ((spread_shape 4 2).1 (by norm_num)).2

/-- C7: for every page `p ∈ [1, pageCount]`, converting single→book
(`pageToSpread`) and back (`spreadToPage`) lands on a page `q` that is
`p` itself or the other page of `p`'s spread, and converting `q` to book
mode again yields the same spread as `p`. -/
theorem mode_round_trip (pc p : ℕ) (h1 : 1 ≤ p) (h2 : p ≤ pc) :
    pageToSpread (spreadToPage pc (pageToSpread p)) = pageToSpread p
    ∧ (spreadToPage pc (pageToSpread p) = p
       ∨ (spreadToPage pc (pageToSpread p) ≠ p
          ∧ ((getSpreadPages pc (pageToSpread p)).left
                = some (spreadToPage pc (pageToSpread p))
             ∨ (getSpreadPages pc (pageToSpread p)).right
                = some (spreadToPage pc (pageToSpread p))))) := by
  by_cases hp1 : p = 1
  · subst hp1
    have hq : spreadToPage pc (pageToSpread 1) = 1 := by
      simp [pageToSpread, spreadToPage, getSpreadPages]
    rw [hq]
    exact ⟨rfl, Or.inl rfl⟩
  · have hp2 : 2 ≤ p := by omega
    have hsp : pageToSpread p = p / 2 := by simp [pageToSpread, hp1]
    have hs1 : 1 ≤ p / 2 := by omega
    have hs0 : p / 2 ≠ 0 := by omega
    have hle : p / 2 * 2 ≤ pc := by omega
    have hspread : getSpreadPages pc (p / 2) =
        ⟨some (p / 2 * 2), if p / 2 * 2 + 1 ≤ pc then some (p / 2 * 2 + 1) else none⟩ := by
      simp only [getSpreadPages, if_neg hs0, if_pos hle]
    have hq : spreadToPage pc (p / 2) = p / 2 * 2 := by
      rw [spreadToPage, hspread]
    rw [hsp, hq]
    constructor
    · have hne1 : p / 2 * 2 ≠ 1 := by omega
      simp only [pageToSpread, if_neg hne1]
      omega
    · rcases Nat.even_or_odd p with he | ho
      · obtain ⟨k, hk⟩ := he
        left
        omega
      · obtain ⟨k, hk⟩ := ho
        right
        refine ⟨by omega, Or.inl ?_⟩
        rw [hspread]

/-- C7 (witness): the round trip evaluated at `pageCount = 10`,
page 7, landing on page 6 of the same spread. -/
theorem mode_round_trip_witness :
    pageToSpread (spreadToPage 10 (pageToSpread 7)) = pageToSpread 7 :=
  (mode_round_trip 10 7 (by norm_num) (by norm_num)).1

/-- C6: a flip request while `flipping ≠ none` leaves the whole book
state (spread index and pending timer included) unchanged; a request
changes the state only when `flipping = none` and the target spread is
in range (`s+1 ≤ totalSpreads-1` for next, `s ≥ 1` for prev); and firing
the timer started by an accepted request advances the spread by exactly
one in the requested direction and returns `flipping` to `none`. -/
theorem flip_gating (ts : ℕ) (st : BookState) :
    (st.flipping ≠ none → goNextSpread ts st = st ∧ goPrevSpread ts st = st)
    ∧ (goNextSpread ts st ≠ st →
        st.flipping = none ∧ st.currentSpread + 1 ≤ ts - 1)
    ∧ (goPrevSpread ts st ≠ st → st.flipping = none ∧ 1 ≤ st.currentSpread)
    ∧ (st.flipping = none → st.currentSpread + 1 ≤ ts - 1 →
        flipTimerFire ts (goNextSpread ts st) = ⟨st.currentSpread + 1, none, none⟩)
    ∧ (st.flipping = none → 1 ≤ st.currentSpread →
        flipTimerFire ts (goPrevSpread ts st) = ⟨st.currentSpread - 1, none, none⟩) := by
  refine ⟨?_, ?_, ?_, ?_, ?_⟩
  · intro hf
    constructor
    · unfold goNextSpread
      rw [if_pos (Or.inr hf)]
    · unfold goPrevSpread
      rw [if_pos (Or.inr hf)]
  · intro hne
    unfold goNextSpread at hne
    split_ifs at hne with h
    · exact absurd rfl hne
    · push_neg at h
      exact ⟨h.2, by omega⟩
  · intro hne
    unfold goPrevSpread at hne
    split_ifs at hne with h
    · exact absurd rfl hne
    · push_neg at h
      exact ⟨h.2, by omega⟩
  · intro hf hrange
    have hcond : ¬(ts - 1 ≤ st.currentSpread ∨ st.flipping ≠ none) := by
      push_neg
      exact ⟨by omega, hf⟩
    unfold goNextSpread
    rw [if_neg hcond]
    unfold flipTimerFire
    simp only []
    congr 1
    omega
  · intro hf hpos
    have hcond : ¬(st.currentSpread = 0 ∨ st.flipping ≠ none) := by
      push_neg
      exact ⟨by omega, hf⟩
    unfold goPrevSpread
    rw [if_neg hcond]
    rfl

/-- C6 (witness): a next request during a flip at spread 2 of 6 is a
no-op, and an accepted next request at spread 2 lands on spread 3 with
`flipping` back to `none` when its timer fires. -/
theorem flip_gating_witness :
    goNextSpread 6 ⟨2, some FlipDir.next, some FlipDir.next⟩
        = ⟨2, some FlipDir.next, some FlipDir.next⟩
    ∧ flipTimerFire 6 (goNextSpread 6 ⟨2, none, none⟩) = ⟨3, none, none⟩ :=
  ⟨((flip_gating 6 ⟨2, some FlipDir.next, some FlipDir.next⟩).1 (by simp)).1,
   (flip_gating 6 ⟨2, none, none⟩).2.2.2.1 rfl (by norm_num)⟩

/-- C3 (counterexample): a failed raster fetch for page 5 of a
10-page document leaves the cache without any entry (no `failed`
record), and the next render of the same view issues a second network
fetch — the failure is retried, contrary to the claim. -/
theorem fetch_failure_cex :
    (fetchThumb true 5 10 [] none).cache = []
    ∧ (fetchThumb true 5 10 (fetchThumb true 5 10 [] none).cache none).fetchIssued
        = true := by
  decide

/-- C3 (amended): a failed fetch returns `null`, leaves the cache
unchanged (failures are not recorded), and every subsequent render of a
view containing that still-uncached page issues a new fetch attempt —
there is no `failed` state and no retry suppression. -/
theorem fetch_failure_retry (page : ℤ) (tp : ℕ) (c : List (ℕ × ℕ))
    (h1 : 1 ≤ page) (h2 : page ≤ (tp : ℤ)) (hc : cacheLookup c page.toNat = none) :
    (fetchThumb true page tp c none).result = none
    ∧ (fetchThumb true page tp c none).cache = c
    ∧ (fetchThumb true page tp c none).fetchIssued = true
    ∧ (fetchThumb true page tp (fetchThumb true page tp c none).cache none).fetchIssued
        = true := by
  have hguard : ¬(¬(true : Bool) ∨ page < 1 ∨ (tp : ℤ) < page) := by
    push_neg
    exact ⟨by simp, by omega, by omega⟩
  have hstep : fetchThumb true page tp c none = ⟨none, c, true⟩ := by
    unfold fetchThumb
    rw [if_neg hguard, hc]
  have hcache : (fetchThumb true page tp c none).cache = c := by rw [hstep]
  exact ⟨by rw [hstep], hcache, by rw [hstep], by rw [hcache, hstep]⟩

/-- C3 (witness): the amended behaviour evaluated at page 5 of a
10-page document with an empty cache. -/
theorem fetch_failure_retry_witness :
    (fetchThumb true 5 10 [] none).cache = []
    ∧ (fetchThumb true 5 10 [] none).fetchIssued = true := by
  have h := fetch_failure_retry 5 10 [] (by norm_num) (by norm_num) (by decide)
  exact ⟨h.2.1, h.2.2.1⟩

/-- Helper: the zoom produced by `handleWheel` is the stepped and
clamped value, in every branch. -/
theorem wheel_zoom_eq (d cX cY rl rt vw vh : ℚ) (t : Transform) :
    (handleWheel d cX cY rl rt vw vh t).zoom
      = min MAX_ZOOM (max MIN_ZOOM
          (t.zoom + if 0 < d then -ZOOM_STEP else ZOOM_STEP)) := by
  simp only [handleWheel]
  set δ := if 0 < d then -ZOOM_STEP else ZOOM_STEP with hδ
  split_ifs <;> rfl

/-- Helper: whenever `handleWheel` lands on zoom 1 the pan is `(0,0)`. -/
theorem wheel_pan_zero (d cX cY rl rt vw vh : ℚ) (t : Transform)
    (h : (handleWheel d cX cY rl rt vw vh t).zoom = 1) :
    (handleWheel d cX cY rl rt vw vh t).pan = ⟨0, 0⟩ := by
  rw [wheel_zoom_eq] at h
  simp only [handleWheel]
  set δ := if 0 < d then -ZOOM_STEP else ZOOM_STEP with hδ
  split_ifs with hA hB
  · rfl
  · exact absurd (by rw [h]; norm_num [MIN_ZOOM]) hA
  · exact absurd (by rw [h]; norm_num [MIN_ZOOM]) hA

/-- Helper: whenever `handleWheel` lands on a zoom other than 1, its pan
is the cursor-anchored ratio formula (also in the clamped-unchanged
branch, where the ratio is 1 and the formula collapses to the old pan). -/
theorem wheel_pan_formula (d cX cY rl rt vw vh : ℚ) (t : Transform)
    (hz : t.zoom ≠ 0) (hw : vw ≠ 0) (hh : vh ≠ 0)
    (h : (handleWheel d cX cY rl rt vw vh t).zoom ≠ 1) :
    (handleWheel d cX cY rl rt vw vh t).pan =
      ⟨(cX - rl) * (1 - (handleWheel d cX cY rl rt vw vh t).zoom / t.zoom)
         + t.pan.x * ((handleWheel d cX cY rl rt vw vh t).zoom / t.zoom),
       (cY - rt) * (1 - (handleWheel d cX cY rl rt vw vh t).zoom / t.zoom)
         + t.pan.y * ((handleWheel d cX cY rl rt vw vh t).zoom / t.zoom)⟩ := by
  rw [wheel_zoom_eq] at h
  rw [wheel_zoom_eq]
  simp only [handleWheel]
  set δ := if 0 < d then -ZOOM_STEP else ZOOM_STEP with hδ
  split_ifs with hA hB
  · exact absurd (by rw [hA]; norm_num [MIN_ZOOM]) h
  · simp only [Vec2.mk.injEq]
    constructor
    · rw [div_mul_cancel₀ _ hw]
    · rw [div_mul_cancel₀ _ hh]
  · push_neg at hB
    rw [hB, div_self hz]
    have hx : (cX - rl) * (1 - 1) + t.pan.x * 1 = t.pan.x := by ring
    have hy : (cY - rt) * (1 - 1) + t.pan.y * 1 = t.pan.y := by ring
    rw [hx, hy]

/-- C5: for every wheel event, with `z1` the clamped new zoom and
`r = z1 / z0`: when `z1 > 1` the new pan is
`cursor * (1 - r) + p * r` componentwise, with the cursor in viewport
pixel space (`clientX - rectLeft`), so the point under the cursor stays
fixed; and when `z1 = 1` the pan is forced to `(0,0)`. -/
theorem wheel_anchor_formula (d cX cY rl rt vw vh : ℚ) (t : Transform)
    (hz : 0 < t.zoom) (hw : 0 < vw) (hh : 0 < vh) :
    (1 < (handleWheel d cX cY rl rt vw vh t).zoom →
      (handleWheel d cX cY rl rt vw vh t).pan =
        ⟨(cX - rl) * (1 - (handleWheel d cX cY rl rt vw vh t).zoom / t.zoom)
           + t.pan.x * ((handleWheel d cX cY rl rt vw vh t).zoom / t.zoom),
         (cY - rt) * (1 - (handleWheel d cX cY rl rt vw vh t).zoom / t.zoom)
           + t.pan.y * ((handleWheel d cX cY rl rt vw vh t).zoom / t.zoom)⟩)
    ∧ ((handleWheel d cX cY rl rt vw vh t).zoom = 1 →
        (handleWheel d cX cY rl rt vw vh t).pan = ⟨0, 0⟩) :=
  ⟨fun hgt => wheel_pan_formula d cX cY rl rt vw vh t (ne_of_gt hz)
      (ne_of_gt hw) (ne_of_gt hh) (ne_of_gt hgt),
   fun h => wheel_pan_zero d cX cY rl rt vw vh t h⟩

/-- C5 (witness): a zoom-in wheel event at cursor (100, 50) on an
800×600 viewport from zoom 2, pan (10, 20): the new zoom is 2.3 and the
pan follows the anchored formula, giving (-7/2, 31/2). -/
theorem wheel_anchor_formula_witness :
    (handleWheel (-1) 100 50 0 0 800 600 ⟨2, ⟨10, 20⟩⟩).pan = ⟨-7/2, 31/2⟩ := by
  have hz : (handleWheel (-1) 100 50 0 0 800 600 ⟨2, ⟨10, 20⟩⟩).zoom = 23/10 := by
    rw [wheel_zoom_eq]
    norm_num [MIN_ZOOM, MAX_ZOOM, ZOOM_STEP, min_def, max_def]
  have h := (wheel_anchor_formula (-1) 100 50 0 0 800 600 ⟨2, ⟨10, 20⟩⟩
    (by norm_num) (by norm_num) (by norm_num)).1 (by rw [hz]; norm_num)
  rw [h, hz]
  norm_num [Vec2.mk.injEq]

/-- C10: a wheel zoom-out received at zoom 1 keeps zoom 1 but
unconditionally resets the pan to `(0,0)` even from a nonzero pan,
while a wheel zoom-in received at zoom 8 leaves zoom and pan completely
unchanged. -/
theorem wheel_at_limits (d cX cY rl rt vw vh : ℚ) (p : Vec2) :
    (0 < d → handleWheel d cX cY rl rt vw vh ⟨1, p⟩ = ⟨1, ⟨0, 0⟩⟩)
    ∧ (d ≤ 0 → handleWheel d cX cY rl rt vw vh ⟨8, p⟩ = ⟨8, p⟩) := by
  constructor
  · intro hd
    norm_num [handleWheel, MIN_ZOOM, MAX_ZOOM, ZOOM_STEP, min_def, max_def, hd]
  · intro hd
    have hnd : ¬(0 < d) := not_lt.mpr hd
    norm_num [handleWheel, MIN_ZOOM, MAX_ZOOM, ZOOM_STEP, min_def, max_def, hnd]

/-- C10 (witness): the two wheel-at-limit behaviours evaluated at
`deltaY = 1` on zoom 1 with pan (5, 7), and `deltaY = -1` on zoom 8
with pan (5, 7). -/
theorem wheel_at_limits_witness :
    handleWheel 1 0 0 0 0 800 600 ⟨1, ⟨5, 7⟩⟩ = ⟨1, ⟨0, 0⟩⟩
    ∧ handleWheel (-1) 0 0 0 0 800 600 ⟨8, ⟨5, 7⟩⟩ = ⟨8, ⟨5, 7⟩⟩ :=
  ⟨(wheel_at_limits 1 0 0 0 0 800 600 ⟨5, 7⟩).1 (by norm_num),
   (wheel_at_limits (-1) 0 0 0 0 800 600 ⟨5, 7⟩).2 (by norm_num)⟩

/-- C1 (counterexample): from the invariant-satisfying state zoom 1,
pan (0,0), a Ctrl+drag pan gesture of 10 px leaves zoom at 1 with a
nonzero pan, and a select drag whose rectangle (1600×30 px) is wider
than the 800×600 viewport drives the zoom below 1 — both gestures are
operations of the viewer, so the claimed invariant does not hold after
every operation. -/
theorem transform_inv_cex :
    transformInv ⟨1, ⟨0, 0⟩⟩
    ∧ ¬ transformInv (runGesture true 0 0 800 600 ⟨0, 0⟩ [⟨10, 0⟩] ⟨1, ⟨0, 0⟩⟩)
    ∧ ¬ transformInv (runGesture false 0 0 800 600 ⟨0, 0⟩ [⟨1600, 30⟩] ⟨1, ⟨0, 0⟩⟩) := by
  refine ⟨by norm_num [transformInv], ?_, ?_⟩
  · norm_num [runGesture, handleMouseDown, handleMouseMove, handleMouseUp,
      transformInv, List.foldl]
  · norm_num [runGesture, handleMouseDown, handleMouseMove, handleMouseUp,
      transformInv, zoomToSelection, MIN_ZOOM, MAX_ZOOM, List.foldl, min_def, max_def]

/-- C1 (amended): wheel zoom, both zoom buttons and the reset performed
on navigation, mode change, double-click or the reset button all
preserve the invariant "zoom ∈ [1,8] and zoom = 1 forces pan = (0,0)";
drag pan does not preserve it (it moves the pan at any zoom, including
zoom 1), and zoom-to-selection guarantees only the upper clamp
`zoom ≤ 8` (it has no lower clamp and recomputes the pan even when the
zoom stays 1). -/
theorem transform_inv_preserved (d cX cY rl rt vw vh : ℚ) (t : Transform)
    (hinv : transformInv t) :
    transformInv (handleWheel d cX cY rl rt vw vh t)
    ∧ transformInv (zoomInBtn t)
    ∧ transformInv (zoomOutBtn t)
    ∧ transformInv resetZoom
    ∧ ∀ sel : SelectionRect, (zoomToSelection vw vh sel t).zoom ≤ 8 := by
  obtain ⟨h1, h2, h3⟩ := hinv
  refine ⟨⟨?_, ?_, ?_⟩, ⟨?_, ?_, ?_⟩, ?_, ?_, ?_⟩
  · rw [wheel_zoom_eq]
    norm_num [MIN_ZOOM, MAX_ZOOM, le_min_iff, le_max_iff]
  · rw [wheel_zoom_eq]
    norm_num [MAX_ZOOM, min_le_iff]
  · exact fun h => wheel_pan_zero d cX cY rl rt vw vh t h
  · simp only [zoomInBtn]
    norm_num [MIN_ZOOM, MAX_ZOOM, ZOOM_STEP, le_min_iff]
    linarith
  · simp only [zoomInBtn]
    norm_num [MAX_ZOOM, ZOOM_STEP, min_le_iff]
  · simp only [zoomInBtn]
    intro heq
    exfalso
    have hge : (8 : ℚ)/5 ≤ min MAX_ZOOM (t.zoom + ZOOM_STEP * 2) := by
      refine le_min (by norm_num [MAX_ZOOM]) ?_
      norm_num [ZOOM_STEP]
      linarith
    rw [heq] at hge
    norm_num at hge
  · simp only [zoomOutBtn]
    split_ifs with hA
    · refine ⟨by rw [hA]; norm_num [MIN_ZOOM], by rw [hA]; norm_num [MIN_ZOOM],
        fun _ => rfl⟩
    · refine ⟨?_, ?_, ?_⟩
      · norm_num [MIN_ZOOM, le_max_iff]
      · norm_num [MIN_ZOOM, MAX_ZOOM, ZOOM_STEP, max_le_iff]
        linarith
      · intro heq
        have heq' : MIN_ZOOM ⊔ (t.zoom - ZOOM_STEP * 2) = 1 := heq
        exact absurd (by rw [heq']; norm_num [MIN_ZOOM]) hA
  · norm_num [resetZoom, transformInv]
  · intro sel
    simp only [zoomToSelection]
    exact le_trans (min_le_left _ _) (by norm_num [MAX_ZOOM])

/-- C1 (witness): the preserved operations evaluated from the state
zoom 1, pan (0,0): a zoom-in wheel event and both buttons keep the
invariant. -/
theorem transform_inv_preserved_witness :
    transformInv (handleWheel (-1) 0 0 0 0 800 600 ⟨1, ⟨0, 0⟩⟩)
    ∧ transformInv (zoomInBtn ⟨1, ⟨0, 0⟩⟩)
    ∧ transformInv (zoomOutBtn ⟨1, ⟨0, 0⟩⟩) := by
  have h := transform_inv_preserved (-1) 0 0 0 0 800 600 ⟨1, ⟨0, 0⟩⟩
    (by norm_num [transformInv])
  exact ⟨h.1, h.2.1, h.2.2.1⟩

/-- C4: a pointer-up ending a select-classified drag whose selection
rectangle exceeds 20×20 px sets the zoom to
`min(vw/sel.w, vh/sel.h) * zoom` clamped to 8 and the pan to
`viewportCenter - (newZoom/oldZoom) * (selectionCenter - oldPan)`
componentwise, which maps the selection's centre onto the viewport's
centre under the new transform. -/
theorem selection_zoom_formula (vw vh : ℚ) (st : DragState) (sel : SelectionRect)
    (hm : st.isPanMode = false) (hs : st.sel = some sel) (hd : st.didDrag = true)
    (hw : 20 < sel.w) (hh : 20 < sel.h) :
    (handleMouseUp vw vh st).transform.zoom
        = min 8 (st.transform.zoom * min (vw / sel.w) (vh / sel.h))
    ∧ (handleMouseUp vw vh st).transform.pan =
        ⟨vw / 2 - ((handleMouseUp vw vh st).transform.zoom / st.transform.zoom)
            * ((sel.x + sel.w / 2) - st.transform.pan.x),
         vh / 2 - ((handleMouseUp vw vh st).transform.zoom / st.transform.zoom)
            * ((sel.y + sel.h / 2) - st.transform.pan.y)⟩
    ∧ (handleMouseUp vw vh st).transform.pan.x
        + ((handleMouseUp vw vh st).transform.zoom / st.transform.zoom)
            * ((sel.x + sel.w / 2) - st.transform.pan.x) = vw / 2
    ∧ (handleMouseUp vw vh st).transform.pan.y
        + ((handleMouseUp vw vh st).transform.zoom / st.transform.zoom)
            * ((sel.y + sel.h / 2) - st.transform.pan.y) = vh / 2 := by
  have hstep : (handleMouseUp vw vh st).transform
      = zoomToSelection vw vh sel st.transform := by
    simp only [handleMouseUp, hm, hs, Bool.false_eq_true, if_false]
    rw [if_pos ⟨by rw [hd], hw, hh⟩]
  rw [hstep]
  simp only [zoomToSelection, MAX_ZOOM]
  refine ⟨trivial, trivial, by ring, by ring⟩

/-- C4 (witness): a 100×80 px selection at (350, 260) on an 800×600
viewport at zoom 1 yields zoom `min(800/100, 600/80) = 7.5` and a pan
mapping the selection centre (400, 300) to the viewport centre. -/
theorem selection_zoom_formula_witness :
    (handleMouseUp 800 600
        ⟨⟨1, ⟨0, 0⟩⟩, false, ⟨0, 0⟩, ⟨0, 0⟩,
         some ⟨350, 260, 350, 260, 100, 80⟩, true⟩).transform.zoom = 15/2
    ∧ (handleMouseUp 800 600
        ⟨⟨1, ⟨0, 0⟩⟩, false, ⟨0, 0⟩, ⟨0, 0⟩,
         some ⟨350, 260, 350, 260, 100, 80⟩, true⟩).transform.pan
        = ⟨-2600, -1950⟩ := by
  have h := selection_zoom_formula 800 600
    ⟨⟨1, ⟨0, 0⟩⟩, false, ⟨0, 0⟩, ⟨0, 0⟩, some ⟨350, 260, 350, 260, 100, 80⟩, true⟩
    ⟨350, 260, 350, 260, 100, 80⟩ rfl rfl rfl (by norm_num) (by norm_num)
  have hz : (handleMouseUp 800 600
      ⟨⟨1, ⟨0, 0⟩⟩, false, ⟨0, 0⟩, ⟨0, 0⟩,
       some ⟨350, 260, 350, 260, 100, 80⟩, true⟩).transform.zoom = 15/2 := by
    rw [h.1]
    norm_num [min_def]
  refine ⟨hz, ?_⟩
  rw [h.2.1, hz]
  norm_num [Vec2.mk.injEq]

/-- Helper: a select-mode move sequence never touches the transform,
keeps the mode and the drag anchor, and leaves `didDrag` unset as long
as every move stays within 5 px of the anchor. -/
theorem foldl_select_facts (rl rt : ℚ) (moves : List Vec2) (st : DragState)
    (hmode : st.isPanMode = false) :
    ((moves.foldl (fun s m => handleMouseMove rl rt m s) st).transform
        = st.transform)
    ∧ ((moves.foldl (fun s m => handleMouseMove rl rt m s) st).isPanMode = false)
    ∧ ((moves.foldl (fun s m => handleMouseMove rl rt m s) st).dragStart
        = st.dragStart)
    ∧ ((∀ m ∈ moves, |m.x - st.dragStart.x| < 5 ∧ |m.y - st.dragStart.y| < 5) →
        st.didDrag = false →
        (moves.foldl (fun s m => handleMouseMove rl rt m s) st).didDrag = false) := by
  induction moves generalizing st with
  | nil => exact ⟨rfl, hmode, rfl, fun _ h => h⟩
  | cons m ms ih =>
    have hmode1 : (handleMouseMove rl rt m st).isPanMode = false := by
      simp only [handleMouseMove, hmode, Bool.false_eq_true, if_false]
    have htr1 : (handleMouseMove rl rt m st).transform = st.transform := by
      simp only [handleMouseMove, hmode, Bool.false_eq_true, if_false]
    have hds1 : (handleMouseMove rl rt m st).dragStart = st.dragStart := by
      simp only [handleMouseMove, hmode, Bool.false_eq_true, if_false]
    obtain ⟨ht, hm2, hd2, hdd⟩ := ih (handleMouseMove rl rt m st) hmode1
    refine ⟨by rw [List.foldl_cons, ht, htr1], by rw [List.foldl_cons]; exact hm2,
      by rw [List.foldl_cons, hd2, hds1], ?_⟩
    intro hsmall hfalse
    rw [List.foldl_cons]
    apply hdd
    · intro m' hm'
      rw [hds1]
      exact hsmall m' (List.mem_cons_of_mem _ hm')
    · have h5 := hsmall m (List.mem_cons_self _ _)
      have hcond : ¬(5 < |m.x - st.dragStart.x| ∨ 5 < |m.y - st.dragStart.y|) := by
        push_neg
        exact ⟨le_of_lt h5.1, le_of_lt h5.2⟩
      simp only [handleMouseMove, hmode, Bool.false_eq_true, if_false, hcond]
      exact hfalse

/-- Helper: a pan-mode move sequence keeps the mode, the selection
slot, the anchors and the zoom, and sets the pan to
`panStart + (lastMove - dragStart)` (or leaves the transform alone when
there is no move). -/
theorem foldl_pan_facts (rl rt : ℚ) (moves : List Vec2) (st : DragState)
    (hmode : st.isPanMode = true) :
    ((moves.foldl (fun s m => handleMouseMove rl rt m s) st).isPanMode = true)
    ∧ ((moves.foldl (fun s m => handleMouseMove rl rt m s) st).sel = st.sel)
    ∧ ((moves.foldl (fun s m => handleMouseMove rl rt m s) st).panStart
        = st.panStart)
    ∧ ((moves.foldl (fun s m => handleMouseMove rl rt m s) st).dragStart
        = st.dragStart)
    ∧ (moves = [] →
        (moves.foldl (fun s m => handleMouseMove rl rt m s) st).transform
          = st.transform)
    ∧ (∀ m, moves.getLast? = some m →
        (moves.foldl (fun s m => handleMouseMove rl rt m s) st).transform
          = { st.transform with
              pan := ⟨st.panStart.x + (m.x - st.dragStart.x),
                      st.panStart.y + (m.y - st.dragStart.y)⟩ }) := by
  induction moves generalizing st with
  | nil =>
    refine ⟨hmode, rfl, rfl, rfl, fun _ => rfl, fun m hm => ?_⟩
    simp at hm
  | cons m ms ih =>
    have hmode1 : (handleMouseMove rl rt m st).isPanMode = true := by
      simp only [handleMouseMove, hmode, if_true]
    have hsel1 : (handleMouseMove rl rt m st).sel = st.sel := by
      simp only [handleMouseMove, hmode, if_true]
    have hps1 : (handleMouseMove rl rt m st).panStart = st.panStart := by
      simp only [handleMouseMove, hmode, if_true]
    have hds1 : (handleMouseMove rl rt m st).dragStart = st.dragStart := by
      simp only [handleMouseMove, hmode, if_true]
    have htr1 : (handleMouseMove rl rt m st).transform
        = { st.transform with
            pan := ⟨st.panStart.x + (m.x - st.dragStart.x),
                    st.panStart.y + (m.y - st.dragStart.y)⟩ } := by
      simp only [handleMouseMove, hmode, if_true]
    obtain ⟨ha, hb, hc, hd, he, hf⟩ := ih (handleMouseMove rl rt m st) hmode1
    refine ⟨by rw [List.foldl_cons]; exact ha,
      by rw [List.foldl_cons, hb, hsel1],
      by rw [List.foldl_cons, hc, hps1],
      by rw [List.foldl_cons, hd, hds1],
      fun hnil => absurd hnil (by simp), ?_⟩
    intro mlast hlast
    rw [List.foldl_cons]
    cases ms with
    | nil =>
      simp only [List.getLast?_singleton, Option.some.injEq] at hlast
      subst hlast
      rw [List.foldl_nil, htr1]
    | cons m2 ms2 =>
      rw [List.getLast?_cons_cons] at hlast
      rw [hf mlast hlast, htr1, hps1, hds1]

/-- Helper: pointer-up leaves the transform untouched for every
pan-mode gesture and for every select-mode gesture whose `didDrag` flag
is unset. -/
theorem mouseUp_transform_fixed (vw vh : ℚ) (s : DragState)
    (h : s.isPanMode = true ∨ s.didDrag = false) :
    (handleMouseUp vw vh s).transform = s.transform := by
  rcases h with h | h
  · simp only [handleMouseUp, h, if_true]
  · rcases hsel : s.sel with _ | sel
    · simp only [handleMouseUp, hsel]
      split_ifs <;> rfl
    · simp only [handleMouseUp, hsel, h, Bool.false_eq_true, false_and, if_false]
      split_ifs <;> rfl

/-- C8 (counterexample): a pan-mode (Ctrl) click whose single move of
3 px stays below the 5 px drag threshold still shifts the pan by 3 px —
the transform after pointer-up differs from the one before
pointer-down, contrary to the claim that a sub-5px click never changes
`{zoom, pan}` in either gesture mode. -/
theorem click_pan_cex :
    (|(3 : ℚ) - 0| < 5 ∧ |(0 : ℚ) - 0| < 5)
    ∧ runGesture true 0 0 800 600 ⟨0, 0⟩ [⟨3, 0⟩] ⟨2, ⟨0, 0⟩⟩ ≠ ⟨2, ⟨0, 0⟩⟩ := by
  constructor
  · norm_num
  · norm_num [runGesture, handleMouseDown, handleMouseMove, handleMouseUp,
      List.foldl]

/-- C8 (amended): a select-mode click (every move within 5 px of the
start) never changes `{zoom, pan}`; a pan-mode gesture tracks the
pointer with no threshold, ending with the pan shifted by the net
pointer movement — so a pan-mode click leaves the transform unchanged
only when its net movement is zero (in particular when there is no
move at all). -/
theorem click_gesture_amended (rl rt vw vh : ℚ) (start : Vec2)
    (moves : List Vec2) (t : Transform) :
    ((∀ m ∈ moves, |m.x - start.x| < 5 ∧ |m.y - start.y| < 5) →
      runGesture false rl rt vw vh start moves t = t)
    ∧ (∀ m, moves.getLast? = some m →
        runGesture true rl rt vw vh start moves t =
          { t with pan := ⟨t.pan.x + (m.x - start.x), t.pan.y + (m.y - start.y)⟩ })
    ∧ (moves = [] → runGesture true rl rt vw vh start moves t = t) := by
  refine ⟨?_, ?_, ?_⟩
  · intro hsmall
    unfold runGesture
    obtain ⟨ht, hm2, _, hdd⟩ := foldl_select_facts rl rt moves
      (handleMouseDown false rl rt start t) rfl
    rw [mouseUp_transform_fixed vw vh _ (Or.inr (hdd hsmall rfl)), ht]
    rfl
  · intro m hlast
    unfold runGesture
    obtain ⟨ha, _, _, _, _, hf⟩ := foldl_pan_facts rl rt moves
      (handleMouseDown true rl rt start t) rfl
    rw [mouseUp_transform_fixed vw vh _ (Or.inl ha), hf m hlast]
    rfl
  · intro hnil
    subst hnil
    simp only [runGesture, List.foldl_nil]
    exact mouseUp_transform_fixed vw vh _ (Or.inl rfl)

/-- C8 (witness): a select-mode click moving 2×1 px leaves the
transform unchanged, and a pan-mode gesture ending 3 px to the right
shifts the pan by exactly (3, 0). -/
theorem click_gesture_amended_witness :
    runGesture false 0 0 800 600 ⟨0, 0⟩ [⟨2, 1⟩] ⟨3, ⟨4, 5⟩⟩ = ⟨3, ⟨4, 5⟩⟩
    ∧ runGesture true 0 0 800 600 ⟨0, 0⟩ [⟨3, 0⟩] ⟨2, ⟨1, 1⟩⟩
        = ⟨2, ⟨1 + (3 - 0), 1 + (0 - 0)⟩⟩ :=
  ⟨(click_gesture_amended 0 0 800 600 ⟨0, 0⟩ [⟨2, 1⟩] ⟨3, ⟨4, 5⟩⟩).1 (by
      intro m hm
      simp only [List.mem_singleton] at hm
      subst hm
      norm_num),
   (click_gesture_amended 0 0 800 600 ⟨0, 0⟩ [⟨3, 0⟩] ⟨2, ⟨1, 1⟩⟩).2.1 ⟨3, 0⟩ rfl⟩

end PdfPreview
